import Mathlib

/-!
# Verification of the swgp-go server relay core (src/service/server.go)

A shallow embedding of the server-side relay of swgp-go: the session
table, the ingress loop `recvFromProxyConnGeneric`, the two per-session
relay workers `relayProxyToWgGeneric` / `relayWgToProxyGeneric`, the
`ServerConfig.Server` constructor and the `Stop` method.

Pure computations (size derivations, first-byte dispatch, slice bounds)
are translated directly from the Go source.  Stateful code is embedded as
explicit step functions on a `ServerState`; the outcomes of external
calls (socket reads and writes, `conn.ListenUDP`, `SetReadDeadline`,
pktinfo parsing, decryption) are passed in as explicit inputs, so every
branch of the Go control flow is represented.  Go `int` is embedded as
`Int`; byte buffers are `List Nat`.

Constants and helpers that live in this repository but outside
`src/service/server.go` (the `service` package constants, `conn`
helpers) are modelled from the spec and marked as such in their doc
comments.
-/

namespace SwgpServer

/-! ## Addresses

Model of `netip.Addr` / `netip.AddrPort` as used by the server: an
address is IPv4, plain IPv6, or an IPv4-mapped IPv6 address (`::ffff:a`),
identified by its numeric value.  `is4`, `is4In6` and `unmap` mirror the
`netip.Addr` methods of the same names. -/

inductive IPAddr where
  /-- an IPv4 address, as its 32-bit value -/
  | v4 (a : Nat)
  /-- an IPv6 address that is not IPv4-mapped, as its 128-bit value -/
  | v6 (a : Nat)
  /-- an IPv4-mapped IPv6 address `::ffff:a` -/
  | v4in6 (a : Nat)
deriving DecidableEq, Repr

def IPAddr.is4 : IPAddr → Bool
  | .v4 _ => true
  | _ => false

def IPAddr.is4In6 : IPAddr → Bool
  | .v4in6 _ => true
  | _ => false

def IPAddr.unmap : IPAddr → IPAddr
  | .v4in6 a => .v4 a
  | a => a

structure AddrPort where
  addr : IPAddr
  port : Nat
deriving DecidableEq, Repr

/-- Modelled from the spec: `conn.AddrPortMappedEqual` (repository code
outside src/) — address/port equality "using IPv4-mapped-IPv6
normalization for equality". -/
def addrPortMappedEqual (l r : AddrPort) : Bool :=
  (l.port == r.port) && (l.addr.unmap == r.addr.unmap)

/-! ## Service-package constants

These constants belong to the repository's `service` package but are not
under src/; they are modelled from the spec. -/

/-- Modelled from the spec: `minimumMTU` — "mtu (int; minimum 1280)",
"`MTUTooSmall` (MTU < 1280)". -/
def minimumMTU : Int := 1280

/-- Modelled from the spec: `IPv4HeaderLength` — "`ip_header` is 20 for
IPv4". -/
def IPv4HeaderLength : Int := 20

/-- Modelled from the spec: `IPv6HeaderLength` — "40 for IPv6". -/
def IPv6HeaderLength : Int := 40

/-- Modelled from the spec: `UDPHeaderLength` — the UDP header is 8
bytes ("MTU minus IP+UDP header"). -/
def UDPHeaderLength : Int := 8

/-- Modelled from the spec: `WireGuardDataPacketOverhead` — "a 32-byte
overhead of header+auth tag". -/
def WireGuardDataPacketOverhead : Int := 32

/-- Modelled from the spec: `WireGuardDataPacketLengthMask` — the mask
`~0xF` in "`(max_proxy_packet_size − overhead − 32) & ~0xF`".  The Go
`&` on `int` is two's-complement bitwise AND, which `Int.land` mirrors
on unbounded integers for all in-range values. -/
def WireGuardDataPacketLengthMask : Int := ~~~(0xF : Int)

/-- Modelled from the spec: `RejectAfterTime` — "180 seconds in the
reference protocol"; time is modelled in whole seconds. -/
def RejectAfterTime : Nat := 180

/-- Modelled from the spec: WireGuard message type 1, handshake
initiation (`packet.WireGuardMessageTypeHandshakeInitiation`). -/
def WireGuardMessageTypeHandshakeInitiation : Nat := 1

/-- Modelled from the spec: WireGuard message type 2, handshake
response (`packet.WireGuardMessageTypeHandshakeResponse`). -/
def WireGuardMessageTypeHandshakeResponse : Nat := 2

/-! ## Server construction (`ServerConfig.Server`, server.go lines 67–126)

The packet handler returned by `getPacketHandlerForProxyMode` is
abstracted by its two constant overheads (the spec's handler contract:
"`front_overhead() → int`, `rear_overhead() → int` are constants").  The
outcomes of the external calls `CheckAndApplyDefaults`,
`getPacketHandlerForProxyMode` and `conn.ResolveAddrPort` are fields of
the configuration model, resolving each branch. -/

structure HandlerModel where
  frontOverhead : Int
  rearOverhead : Int
deriving DecidableEq, Repr

/-- Model of `ServerConfig`, keeping the fields the relay core reads,
together with the outcomes of the three fallible external calls made by
`Server`. -/
structure ServerConfigModel where
  mtu : Int
  sendChannelCapacity : Nat
  /-- outcome of `sc.CheckAndApplyDefaults()`: `true` = no error -/
  perfConfigOk : Bool
  /-- outcome of `getPacketHandlerForProxyMode`: the handler, or failure
  (unknown proxy mode / invalid PSK) -/
  handlerResult : Option HandlerModel
  /-- outcome of `conn.ResolveAddrPort(sc.WgEndpoint)` -/
  resolveResult : Option AddrPort
deriving DecidableEq, Repr

inductive ServerError where
  /-- `ErrMTUTooSmall` -/
  | mtuTooSmall
  /-- error from `sc.CheckAndApplyDefaults()` -/
  | perfConfig
  /-- `UnknownProxyMode` / `InvalidPSK` from `getPacketHandlerForProxyMode` -/
  | badProxyModeOrPSK
  /-- endpoint resolution failure from `conn.ResolveAddrPort` -/
  | endpointUnresolvable
deriving DecidableEq, Repr

/-- The immutable server fields set up by `ServerConfig.Server`. -/
structure ServerModel where
  sendChannelCapacity : Nat
  maxProxyPacketSizev4 : Int
  maxProxyPacketSizev6 : Int
  wgTunnelMTUv4 : Int
  wgTunnelMTUv6 : Int
  wgAddrPort : AddrPort
  handler : HandlerModel
deriving DecidableEq, Repr

/-- `ServerConfig.Server` (server.go lines 67–126): validate the MTU,
check the perf config, create the packet handler, resolve the endpoint,
then derive the proxy packet sizes and tunnel MTUs. -/
def ServerConfigServer (sc : ServerConfigModel) : Except ServerError ServerModel :=
  -- Require MTU to be at least 1280.
  if sc.mtu < minimumMTU then
    .error .mtuTooSmall
  else
    -- Check and apply PerfConfig defaults.
    if !sc.perfConfigOk then
      .error .perfConfig
    else
      match sc.handlerResult with
      | none => .error .badProxyModeOrPSK
      | some handler =>
        match sc.resolveResult with
        | none => .error .endpointUnresolvable
        | some wgAddrPort =>
          -- maxProxyPacketSize = MTU - IP header length - UDP header length
          let maxProxyPacketSizev4 := sc.mtu - IPv4HeaderLength - UDPHeaderLength
          let maxProxyPacketSizev6 := sc.mtu - IPv6HeaderLength - UDPHeaderLength
          let overhead := handler.frontOverhead + handler.rearOverhead
          let wgTunnelMTUv4 :=
            Int.land (maxProxyPacketSizev4 - overhead - WireGuardDataPacketOverhead)
              WireGuardDataPacketLengthMask
          let wgTunnelMTUv6 :=
            Int.land (maxProxyPacketSizev6 - overhead - WireGuardDataPacketOverhead)
              WireGuardDataPacketLengthMask
          .ok {
            sendChannelCapacity := sc.sendChannelCapacity
            maxProxyPacketSizev4 := maxProxyPacketSizev4
            maxProxyPacketSizev6 := maxProxyPacketSizev6
            wgTunnelMTUv4 := wgTunnelMTUv4
            wgTunnelMTUv6 := wgTunnelMTUv6
            wgAddrPort := wgAddrPort
            handler := handler
          }

/-! ## Packet buffers and queued packets

Byte buffers are `List Nat`.  `queuedPacket` (repository code outside
src/, reconstructed from its uses `queuedPacket{packetBuf,
wgPacketStart, wgPacketLength}` and the spec's "buffer handle +
plaintext start offset + plaintext length") is a buffer handle with a
start offset and length. -/

structure QueuedPacket where
  buf : List Nat
  start : Nat
  length : Nat
deriving DecidableEq, Repr

/-- The Go slice expression `buf[start : start+length]` (its content;
the Go expression additionally panics when `start+length > len(buf)`,
which the bounds theorems below rule out). -/
def sliceBytes (buf : List Nat) (start length : Nat) : List Nat :=
  (buf.drop start).take length

/-- The precondition established by `DecryptZeroCopy` for every packet
placed on a send queue: the plaintext window lies inside the buffer and
is nonempty. -/
def QueuedPacket.wellFormed (qp : QueuedPacket) : Prop :=
  qp.start + qp.length ≤ qp.buf.length ∧ 1 ≤ qp.length

instance (qp : QueuedPacket) : Decidable qp.wellFormed := by
  unfold QueuedPacket.wellFormed; infer_instance

/-! ## Session table state

`serverNatEntry` (server.go lines 33–39) with two ghost fields tracking
the per-session worker goroutines: `workersStarted` records that the
ingress loop executed `s.wg.Add(2)` and spawned both relay goroutines
for this entry (lines 297–315), and `orphaned` records that the entry
was inserted by an iteration whose pktinfo parse failed before reaching
the worker-start block (lines 266–278).  The physical fields change
exactly as the Go code changes them. -/

structure EntryModel where
  /-- `clientPktinfo atomic.Pointer[[]byte]`; `none` = nil pointer -/
  clientPktinfoAtomic : Option (List Nat)
  /-- `clientPktinfoCache []byte`; `[]` = nil -/
  clientPktinfoCache : List Nat
  /-- read deadline currently set on `wgConn` -/
  wgConnDeadline : Option Nat
  /-- `wgConnSendCh chan queuedPacket`: current contents, oldest first -/
  wgConnSendCh : List QueuedPacket
  /-- `maxProxyPacketSize int` -/
  maxProxyPacketSize : Int
  /-- ghost: both relay goroutines have been started for this entry -/
  workersStarted : Bool
  /-- ghost: inserted by an iteration whose pktinfo parse failed -/
  orphaned : Bool
deriving DecidableEq, Repr

/-- `table map[netip.AddrPort]*serverNatEntry`, as a partial map. -/
def Table : Type := AddrPort → Option EntryModel

def Table.insert (t : Table) (a : AddrPort) (e : EntryModel) : Table :=
  fun x => if x = a then some e else t x

def Table.erase (t : Table) (a : AddrPort) : Table :=
  fun x => if x = a then none else t x

def Table.empty : Table := fun _ => none

/-- The mutable server state the claims are about: the session table and
a ghost counter of pool buffers currently checked out (held by the
ingress loop between get/put, or owned by a send queue). -/
structure ServerState where
  table : Table
  outstanding : Nat

def initialState : ServerState := { table := Table.empty, outstanding := 0 }

/-! ## One iteration of the ingress loop
(`recvFromProxyConnGeneric`, server.go lines 165–341)

The outcomes of the external calls made during the iteration — the
socket read, flag validation, `DecryptZeroCopy`, `conn.ListenUDP`,
`SetReadDeadline` and `conn.ParsePktinfoCmsg` — are fields of
`IngressInput`, so each Go branch is driven by an explicit input. -/

inductive ReadResult where
  /-- read error wrapping `os.ErrDeadlineExceeded` -/
  | deadlineExceeded
  /-- any other read error -/
  | readError
  /-- `conn.ParseFlagsForError` failure -/
  | badFlags
  /-- a datagram of `cmsg` control bytes from `clientAddrPort` -/
  | ok (clientAddrPort : AddrPort) (cmsg : List Nat)
deriving DecidableEq, Repr

structure IngressInput where
  readResult : ReadResult
  /-- contents of the pool buffer after the read -/
  packetBuf : List Nat
  /-- outcome of `s.handler.DecryptZeroCopy`: `(wgPacketStart, wgPacketLength)` -/
  decryptResult : Option (Nat × Nat)
  /-- outcome of `conn.ListenUDP` for a new session -/
  listenOk : Bool
  /-- outcome of the initial `wgConn.SetReadDeadline` -/
  setDeadlineOk : Bool
  /-- outcome of `conn.ParsePktinfoCmsg`, when it is reached -/
  parseOk : Bool
  /-- current time in seconds (`time.Now()`) -/
  now : Nat

inductive IngressOutcome where
  /-- `break`: the loop terminates -/
  | exitLoop
  /-- `continue`, or normal fall-through to the next iteration -/
  | continueIter
deriving DecidableEq, Repr

/-- Lines 297–338: start both workers when the entry is new
(`s.wg.Add(2)` and the two `go` statements), then try a non-blocking
send of the queued packet (`select`/`default`). -/
def recvWorkerStartAndEnqueue (cfg : ServerModel) (st : ServerState)
    (clientAddrPort : AddrPort) (natEntry : EntryModel) (isNew : Bool)
    (qp : QueuedPacket) : ServerState × IngressOutcome :=
  let natEntry1 := if isNew then { natEntry with workersStarted := true } else natEntry
  if natEntry1.wgConnSendCh.length < cfg.sendChannelCapacity then
    -- case natEntry.wgConnSendCh <- queuedPacket{...}: the buffer is
    -- now owned by the queue
    ({ table := st.table.insert clientAddrPort
         { natEntry1 with wgConnSendCh := natEntry1.wgConnSendCh ++ [qp] },
       outstanding := st.outstanding }, .continueIter)
  else
    -- default: drop the newest packet, putPacketBuf
    ({ table := st.table.insert clientAddrPort natEntry1,
       outstanding := st.outstanding - 1 }, .continueIter)

/-- Lines 263–340: the tail of the critical section shared by the
existing-entry (`ok`) and new-entry (`!ok`) paths — pktinfo
compare/parse/update, worker start for a new entry, and the non-blocking
enqueue.  `natEntry` is the entry already stored in the table at
`clientAddrPort` (for a new entry, inserted by line 260). -/
def recvCriticalSectionTail (cfg : ServerModel) (st : ServerState)
    (clientAddrPort : AddrPort) (natEntry : EntryModel) (isNew : Bool)
    (cmsg : List Nat) (inp : IngressInput) (qp : QueuedPacket) :
    ServerState × IngressOutcome :=
  -- if !bytes.Equal(natEntry.clientPktinfoCache, cmsg)
  if natEntry.clientPktinfoCache ≠ cmsg then
    if !inp.parseOk then
      -- parse failure: putPacketBuf, unlock, continue.  A newly inserted
      -- entry stays in the table with no workers started (ghost: orphaned).
      let natEntry' := if isNew then { natEntry with orphaned := true } else natEntry
      ({ table := st.table.insert clientAddrPort natEntry',
         outstanding := st.outstanding - 1 }, .continueIter)
    else
      -- publish a fresh copy atomically, replace the cache
      let natEntry' := { natEntry with
        clientPktinfoAtomic := some cmsg
        clientPktinfoCache := cmsg }
      recvWorkerStartAndEnqueue cfg st clientAddrPort natEntry' isNew qp
  else
    recvWorkerStartAndEnqueue cfg st clientAddrPort natEntry isNew qp

/-- One iteration of the `for` loop of `recvFromProxyConnGeneric`
(server.go lines 165–341). -/
def recvFromProxyConnStep (cfg : ServerModel) (s : ServerState)
    (inp : IngressInput) : ServerState × IngressOutcome :=
  -- packetBuf := s.getPacketBuf()
  let st := { s with outstanding := s.outstanding + 1 }
  match inp.readResult with
  | .deadlineExceeded =>
    -- s.putPacketBuf(packetBuf); break
    ({ st with outstanding := st.outstanding - 1 }, .exitLoop)
  | .readError =>
    ({ st with outstanding := st.outstanding - 1 }, .continueIter)
  | .badFlags =>
    ({ st with outstanding := st.outstanding - 1 }, .continueIter)
  | .ok clientAddrPort cmsg =>
    match inp.decryptResult with
    | none =>
      -- decryption failure
      ({ st with outstanding := st.outstanding - 1 }, .continueIter)
    | some (wgPacketStart, wgPacketLength) =>
      let qp : QueuedPacket :=
        { buf := inp.packetBuf, start := wgPacketStart, length := wgPacketLength }
      -- s.mu.Lock()
      match st.table clientAddrPort with
      | some natEntry =>
        recvCriticalSectionTail cfg st clientAddrPort natEntry false cmsg inp qp
      | none =>
        if !inp.listenOk then
          ({ st with outstanding := st.outstanding - 1 }, .continueIter)
        else if !inp.setDeadlineOk then
          ({ st with outstanding := st.outstanding - 1 }, .continueIter)
        else
          -- allocate the entry; select sizes by the client address family
          let addr := clientAddrPort.addr
          let natEntry : EntryModel :=
            { clientPktinfoAtomic := none
              clientPktinfoCache := []
              wgConnDeadline := some (inp.now + RejectAfterTime)
              wgConnSendCh := []
              maxProxyPacketSize :=
                if addr.is4 || addr.is4In6 then cfg.maxProxyPacketSizev4
                else cfg.maxProxyPacketSizev6
              workersStarted := false
              orphaned := false }
          -- s.table[clientAddrPort] = natEntry
          let st1 := { st with table := st.table.insert clientAddrPort natEntry }
          recvCriticalSectionTail cfg st1 clientAddrPort natEntry true cmsg inp qp

/-! ## The table-affecting worker transitions

The Proxy→Wg worker receives from the send queue and releases each
buffer (lines 358–388); the Wg→Proxy worker's wrapper closes the queue
and deletes the entry inside the table mutex when the worker returns
(lines 300–309), after which the Proxy→Wg worker drains the remaining
queued packets and releases their buffers.  Neither worker touches any
other table state. -/

/-- The Proxy→Wg worker of session `a` dequeues one packet and releases
its buffer.  Only a started worker can do this. -/
def dequeueStep (s : ServerState) (a : AddrPort) : ServerState :=
  match s.table a with
  | none => s
  | some e =>
    if e.workersStarted then
      match e.wgConnSendCh with
      | [] => s
      | _ :: rest =>
        { table := s.table.insert a { e with wgConnSendCh := rest },
          outstanding := s.outstanding - 1 }
    else s

/-- The Wg→Proxy worker of session `a` exits: its wrapper closes the
send queue and deletes the entry under the table mutex; the Proxy→Wg
worker then drains the closed queue, releasing every remaining buffer.
Only a started worker can exit. -/
def sessionEndStep (s : ServerState) (a : AddrPort) : ServerState :=
  match s.table a with
  | none => s
  | some e =>
    if e.workersStarted then
      { table := s.table.erase a,
        outstanding := s.outstanding - e.wgConnSendCh.length }
    else s

/-- The states reachable from the empty server: any interleaving of
ingress-loop iterations, Proxy→Wg dequeues, and Wg→Proxy session
teardowns.  (`Stop` and the in-loop parts of the relay workers do not
modify the table or the pool, see `relayProxyToWgStep` /
`relayWgToProxyIter` / `stopServer` below.) -/
inductive Reachable (cfg : ServerModel) : ServerState → Prop where
  | init : Reachable cfg initialState
  | ingress (s : ServerState) (inp : IngressInput) :
      Reachable cfg s → Reachable cfg (recvFromProxyConnStep cfg s inp).1
  | dequeue (s : ServerState) (a : AddrPort) :
      Reachable cfg s → Reachable cfg (dequeueStep s a)
  | sessionEnd (s : ServerState) (a : AddrPort) :
      Reachable cfg s → Reachable cfg (sessionEndStep s a)

/-! ## One iteration of the Proxy→Wg worker
(`relayProxyToWgGeneric`, server.go lines 352–398) -/

/-- The per-session upstream socket, reduced to its read deadline. -/
structure WgConnModel where
  readDeadline : Option Nat
deriving DecidableEq, Repr

structure ProxyToWgStepResult where
  /-- bytes handed to `wgConn.WriteToUDPAddrPort` -/
  written : List Nat
  /-- wgConn state after the iteration -/
  wgConn : WgConnModel
  /-- the buffer was returned to the pool (`s.putPacketBuf`) -/
  bufReleased : Bool
deriving DecidableEq, Repr

/-- One iteration of `for queuedPacket := range natEntry.wgConnSendCh`
(lines 358–388): write the packet to the upstream socket, refresh the
read deadline on a handshake initiation/response first byte, release the
buffer.  `none` models the index-out-of-range panic of `wgPacket[0]` on
an empty slice. -/
def relayProxyToWgStep (wgConn : WgConnModel) (qp : QueuedPacket) (now : Nat) :
    Option ProxyToWgStepResult :=
  let wgPacket := sliceBytes qp.buf qp.start qp.length
  -- the write happens unconditionally; a write error is only logged
  match wgPacket.head? with
  | none => none
  | some b =>
    -- switch wgPacket[0] { case 1, 2: wgConn.SetReadDeadline(now + RejectAfterTime) }
    let wgConn' :=
      if b = WireGuardMessageTypeHandshakeInitiation ∨
          b = WireGuardMessageTypeHandshakeResponse then
        { readDeadline := some (now + RejectAfterTime) }
      else wgConn
    some { written := wgPacket, wgConn := wgConn', bufReleased := true }

/-! ## The Proxy→Wg worker's full trace (server.go lines 311–315, 352–398)

The worker goroutine consumes the send queue until it is closed, handles
every item, and only then closes the upstream socket
(`natEntry.wgConn.Close()`) and exits.  `queue` is the list of every
packet successfully enqueued before the channel closed, oldest first. -/

inductive RelayEvent where
  /-- `wgConn.WriteToUDPAddrPort(wgPacket, s.wgAddrPort)` -/
  | writeWg (p : List Nat)
  /-- `wgConn.SetReadDeadline(now + RejectAfterTime)` -/
  | setReadDeadline (d : Nat)
  /-- `s.putPacketBuf(queuedPacket.buf)` -/
  | putBuf (b : List Nat)
  /-- `natEntry.wgConn.Close()` -/
  | closeWgConn
deriving DecidableEq, Repr

/-- The events of one loop iteration on `qp`; `none` models the panic on
a zero-length packet. -/
def proxyToWgIterEvents (qp : QueuedPacket) (now : Nat) : Option (List RelayEvent) :=
  let wgPacket := sliceBytes qp.buf qp.start qp.length
  match wgPacket.head? with
  | none => none
  | some b =>
    some ([RelayEvent.writeWg wgPacket] ++
      (if b = WireGuardMessageTypeHandshakeInitiation ∨
          b = WireGuardMessageTypeHandshakeResponse then
        [RelayEvent.setReadDeadline (now + RejectAfterTime)]
      else []) ++
      [RelayEvent.putBuf qp.buf])

/-- The trace of the whole Proxy→Wg worker goroutine: one iteration per
queued packet, in queue order, then the socket close on exit. -/
def relayProxyToWgTrace (queue : List QueuedPacket) (now : Nat) :
    Option (List RelayEvent) :=
  match queue with
  | [] => some [RelayEvent.closeWgConn]
  | qp :: rest =>
    match proxyToWgIterEvents qp now, relayProxyToWgTrace rest now with
    | some evs, some tr => some (evs ++ tr)
    | _, _ => none

/-! ## One iteration of the Wg→Proxy worker
(`relayWgToProxyGeneric`, server.go lines 417–491) -/

inductive WgReadResult where
  /-- read error wrapping `os.ErrDeadlineExceeded` -/
  | deadlineExceeded
  /-- any other read error -/
  | readError
  /-- `conn.ParseFlagsForError` failure -/
  | badFlags
  /-- `n` plaintext bytes read from `packetSourceAddrPort` -/
  | ok (n : Nat) (packetSourceAddrPort : AddrPort)
deriving DecidableEq, Repr

/-- The worker's loop-local pktinfo variables (`clientPktinfop`,
`clientPktinfo`). -/
structure WgToProxyLocal where
  clientPktinfop : Option (List Nat)
  clientPktinfo : List Nat
deriving DecidableEq, Repr

structure WgToProxyInput where
  readResult : WgReadResult
  /-- outcome of `s.handler.EncryptZeroCopy`: `(swgpPacketStart, swgpPacketLength)` -/
  encryptResult : Option (Nat × Nat)
  /-- current value of `natEntry.clientPktinfo.Load()` -/
  atomicPktinfo : Option (List Nat)
deriving DecidableEq, Repr

/-- A `proxyConn.WriteMsgUDPAddrPort` call made by the worker. -/
structure ProxyWrite where
  /-- `(start, length)` of `swgpPacket` within the scratch buffer -/
  swgpPacket : Nat × Nat
  /-- ancillary pktinfo bytes sent along -/
  pktinfo : List Nat
  dest : AddrPort
deriving DecidableEq, Repr

inductive WgToProxyOutcome where
  | exitLoop
  | continueIter
deriving DecidableEq, Repr

structure WgToProxyIterResult where
  locState : WgToProxyLocal
  /-- the write to proxyConn performed this iteration, if any -/
  write : Option ProxyWrite
  /-- whether `EncryptZeroCopy` was invoked this iteration -/
  encryptCalled : Bool
  outcome : WgToProxyOutcome
deriving DecidableEq, Repr

/-- One iteration of the `for` loop of `relayWgToProxyGeneric` (lines
417–491).  `none` models the nil-pointer dereference of `*cpp` when the
atomic pointer is nil yet differs from the local pointer (cannot occur
once a pktinfo was published). -/
def relayWgToProxyIter (cfg : ServerModel) (clientAddrPort : AddrPort)
    (loc : WgToProxyLocal) (inp : WgToProxyInput) :
    Option WgToProxyIterResult :=
  match inp.readResult with
  | .deadlineExceeded =>
    some { locState := loc, write := none, encryptCalled := false, outcome := .exitLoop }
  | .readError =>
    some { locState := loc, write := none, encryptCalled := false, outcome := .continueIter }
  | .badFlags =>
    some { locState := loc, write := none, encryptCalled := false, outcome := .continueIter }
  | .ok _n packetSourceAddrPort =>
    -- if !conn.AddrPortMappedEqual(packetSourceAddrPort, s.wgAddrPort)
    if !addrPortMappedEqual packetSourceAddrPort cfg.wgAddrPort then
      some { locState := loc, write := none, encryptCalled := false, outcome := .continueIter }
    else
      match inp.encryptResult with
      | none =>
        some { locState := loc, write := none, encryptCalled := true, outcome := .continueIter }
      | some (swgpPacketStart, swgpPacketLength) =>
        -- if cpp := natEntry.clientPktinfo.Load(); cpp != clientPktinfop
        if inp.atomicPktinfo ≠ loc.clientPktinfop then
          match inp.atomicPktinfo with
          | none => none
          | some bytes =>
            some { locState := { clientPktinfop := some bytes, clientPktinfo := bytes },
                   write := some { swgpPacket := (swgpPacketStart, swgpPacketLength),
                                   pktinfo := bytes, dest := clientAddrPort },
                   encryptCalled := true, outcome := .continueIter }
        else
          some { locState := loc,
                 write := some { swgpPacket := (swgpPacketStart, swgpPacketLength),
                                 pktinfo := loc.clientPktinfo, dest := clientAddrPort },
                 encryptCalled := true, outcome := .continueIter }

/-! ## Stop (server.go lines 514–548)

`net` semantics: an operation on a closed connection fails with
`net.ErrClosed` ("use of closed network connection"); `Close` on an open
connection succeeds.  `Stop` never sets `s.proxyConn` back to nil. -/

inductive ConnState where
  | opened
  | closed
deriving DecidableEq, Repr

inductive GoError where
  /-- `net.ErrClosed` -/
  | errClosed
deriving DecidableEq, Repr

/-- `SetReadDeadline` on a UDP connection: fails on a closed connection. -/
def connSetReadDeadline : ConnState → Except GoError Unit
  | .opened => .ok ()
  | .closed => .error .errClosed

/-- `Close` on a UDP connection: fails when already closed. -/
def connClose : ConnState → Except GoError Unit
  | .opened => .ok ()
  | .closed => .error .errClosed

/-- The lifecycle-relevant server state: the proxy socket (`none` = nil,
i.e. `Start` never ran) and the session table. -/
structure LifecycleState where
  proxyConn : Option ConnState
  table : Table

/-- `Stop` (lines 514–548).  After the proxy socket's deadline is set,
`mwg.Wait` returns (the ingress loop exits on the deadline), the wgConn
deadlines fire, and `wg.Wait` returns once every started session's
workers have exited — removing their entries from the table.  Entries
whose workers were never started are not covered by `wg` and stay.
Finally the proxy socket is closed (and stays non-nil). -/
def stopServer (s : LifecycleState) : Except GoError Unit × LifecycleState :=
  match s.proxyConn with
  | none => (.ok (), s)
  | some c =>
    match connSetReadDeadline c with
    | .error e => (.error e, s)
    | .ok _ =>
      let table' : Table := fun a =>
        match s.table a with
        | some e => if e.workersStarted then none else some e
        | none => none
      (connClose c, { proxyConn := some .closed, table := table' })

/-! ## Concrete instances used by the counterexamples and witnesses -/

/-- The lifecycle state left behind by a completed first `Stop` on a
started server with an empty (fully drained) session table. -/
def stoppedOnce : LifecycleState := { proxyConn := some .closed, table := Table.empty }

/-- A concrete server (MTU 1500, zero-overhead handler sizes). -/
def cfgC : ServerModel :=
  { sendChannelCapacity := 2, maxProxyPacketSizev4 := 1472,
    maxProxyPacketSizev6 := 1452, wgTunnelMTUv4 := 1392, wgTunnelMTUv6 := 1360,
    wgAddrPort := { addr := .v4 9, port := 51820 },
    handler := { frontOverhead := 24, rearOverhead := 24 } }

/-- A concrete client address (`192.0.2.1:51820`). -/
def addrC : AddrPort := { addr := .v4 0xC0000201, port := 51820 }

/-- A concrete ingress iteration from a previously-unseen client whose
pktinfo control message fails to parse: the read and the decryption
succeed, the upstream socket is created and its deadline set, but
`conn.ParsePktinfoCmsg` fails. -/
def inpC : IngressInput :=
  { readResult := .ok addrC [9, 9], packetBuf := [4, 0, 0, 0],
    decryptResult := some (0, 4), listenOk := true, setDeadlineOk := true,
    parseOk := false, now := 0 }

/-- The state after running `inpC` against the empty server. -/
def orphanState : ServerState := (recvFromProxyConnStep cfgC initialState inpC).1

/-- The entry `inpC` leaves in the table: inserted, no workers started. -/
def orphanEntryC : EntryModel :=
  { clientPktinfoAtomic := none, clientPktinfoCache := [],
    wgConnDeadline := some 180, wgConnSendCh := [], maxProxyPacketSize := 1472,
    workersStarted := false, orphaned := true }

/-- A concrete session entry whose send queue is full (capacity 2). -/
def fullEntryC : EntryModel :=
  { clientPktinfoAtomic := some [1], clientPktinfoCache := [1],
    wgConnDeadline := some 180,
    wgConnSendCh := [{ buf := [4, 0], start := 0, length := 2 },
                     { buf := [4, 1], start := 0, length := 2 }],
    maxProxyPacketSize := 1472, workersStarted := true, orphaned := false }

/-- A server state holding the full-queue session at `addrC`. -/
def fullState : ServerState :=
  { table := Table.empty.insert addrC fullEntryC, outstanding := 2 }

/-- A concrete ingress iteration for `addrC` whose decrypted packet hits
the full send queue (the pktinfo bytes match the cache). -/
def inpFullC : IngressInput :=
  { readResult := .ok addrC [1], packetBuf := [4, 7, 7, 7],
    decryptResult := some (0, 4), listenOk := true, setDeadlineOk := true,
    parseOk := true, now := 0 }

/-! ## Theorems -/

/-- C5: for every accepted configuration, the derived sizes satisfy
`max_proxy_packet_size_v4 = MTU − 20 − 8`,
`max_proxy_packet_size_v6 = MTU − 40 − 8`, and the advertised WireGuard
tunnel MTUs equal `(max_proxy_packet_size − (front_overhead +
rear_overhead) − 32) & ~0xF`, computed separately for v4 and v6. -/
theorem derived_sizes_correct (sc : ServerConfigModel) (s : ServerModel)
    (h : ServerConfigServer sc = .ok s) :
    s.maxProxyPacketSizev4 = sc.mtu - 20 - 8 ∧
    s.maxProxyPacketSizev6 = sc.mtu - 40 - 8 ∧
    s.wgTunnelMTUv4 =
      Int.land (s.maxProxyPacketSizev4 - (s.handler.frontOverhead + s.handler.rearOverhead) - 32)
        (~~~(0xF : Int)) ∧
    s.wgTunnelMTUv6 =
      Int.land (s.maxProxyPacketSizev6 - (s.handler.frontOverhead + s.handler.rearOverhead) - 32)
        (~~~(0xF : Int)) := by
  unfold ServerConfigServer at h
  split at h
  · exact absurd h (by simp)
  · split at h
    · exact absurd h (by simp)
    · rcases hh : sc.handlerResult with _ | handler <;> rw [hh] at h
      · exact absurd h (by simp)
      · rcases hr : sc.resolveResult with _ | wgap <;> rw [hr] at h
        · exact absurd h (by simp)
        · simp only [Except.ok.injEq] at h
          subst h
          refine ⟨rfl, rfl, rfl, rfl⟩

lemma ldiff_fifteen (n : Nat) : Nat.ldiff n 15 = 16 * (n / 16) := by
  have h16 : (16 : Nat) = 2 ^ 4 := by norm_num
  have h15 : (15 : Nat) = 2 ^ 4 - 1 := by norm_num
  apply Nat.eq_of_testBit_eq
  intro i
  rw [h15, h16, Nat.testBit_ldiff, Nat.testBit_mul_pow_two, Nat.testBit_two_pow_sub_one,
    ← Nat.shiftRight_eq_div_pow, Nat.testBit_shiftRight]
  by_cases h : i < 4
  · simp [h, not_le.mpr h]
  · have h4 : 4 + (i - 4) = i := by omega
    simp [h, not_lt.mp h, h4]

lemma int_land_mask_ofNat (n : Nat) :
    Int.land (Int.ofNat n) (~~~(0xF : Int)) = Int.ofNat (16 * (n / 16)) := by
  have hm : (~~~(0xF : Int)) = Int.negSucc 15 := rfl
  rw [hm]
  show (Int.ofNat (Nat.ldiff n 15) : Int) = _
  rw [ldiff_fifteen]

/-- C5 witness: the theorem instantiated at a concrete accepted
configuration (MTU 1500, overheads 24 + 24). -/
theorem derived_sizes_correct_witness :
    (1472 : Int) = 1500 - 20 - 8 ∧
    (1452 : Int) = 1500 - 40 - 8 ∧
    (1392 : Int) = Int.land (1472 - (24 + 24) - 32) (~~~(0xF : Int)) ∧
    (1360 : Int) = Int.land (1452 - (24 + 24) - 32) (~~~(0xF : Int)) :=
  derived_sizes_correct
    { mtu := 1500, sendChannelCapacity := 1024, perfConfigOk := true,
      handlerResult := some { frontOverhead := 24, rearOverhead := 24 },
      resolveResult := some { addr := .v4 0x7f000001, port := 51820 } }
    { sendChannelCapacity := 1024, maxProxyPacketSizev4 := 1472,
      maxProxyPacketSizev6 := 1452, wgTunnelMTUv4 := 1392, wgTunnelMTUv6 := 1360,
      wgAddrPort := { addr := .v4 0x7f000001, port := 51820 },
      handler := { frontOverhead := 24, rearOverhead := 24 } }
    (by
      have h1 : Int.land 1392 (~~~(0xF : Int)) = 1392 := by
        have h := int_land_mask_ofNat 1392
        norm_num at h
        exact h
      have h2 : Int.land 1372 (~~~(0xF : Int)) = 1360 := by
        have h := int_land_mask_ofNat 1372
        norm_num at h
        exact h
      unfold ServerConfigServer
      norm_num [minimumMTU, IPv4HeaderLength, IPv6HeaderLength, UDPHeaderLength,
        WireGuardDataPacketOverhead, WireGuardDataPacketLengthMask, h1, h2])

/-- C6: server construction fails with the MTU-too-small error exactly
when the configured MTU is less than 1280, regardless of every other
configuration field (so the check runs before any other validation);
in particular MTU 1280 passes the check and MTU 1279 is rejected. -/
theorem mtu_too_small_iff (sc : ServerConfigModel) :
    ServerConfigServer sc = .error .mtuTooSmall ↔ sc.mtu < 1280 := by
  by_cases hm : sc.mtu < 1280
  · have hm' : sc.mtu < minimumMTU := by simpa [minimumMTU] using hm
    simp [ServerConfigServer, hm', hm]
  · have hm' : ¬sc.mtu < minimumMTU := by simpa [minimumMTU] using hm
    simp only [ServerConfigServer, if_neg hm', iff_false_intro hm, iff_false]
    intro h
    split at h
    · exact absurd h (by simp)
    · rcases hh : sc.handlerResult with _ | handler <;> rw [hh] at h
      · exact absurd h (by simp)
      · rcases hr : sc.resolveResult with _ | wgap <;> rw [hr] at h
        · exact absurd h (by simp)
        · exact absurd h (by simp)

lemma sliceBytes_length (buf : List Nat) (start length : Nat)
    (h : start + length ≤ buf.length) :
    (sliceBytes buf start length).length = length := by
  simp only [sliceBytes, List.length_take, List.length_drop]
  omega

lemma relayProxyToWgStep_cons (wgConn : WgConnModel) (qp : QueuedPacket)
    (now : Nat) (b : Nat) (t : List Nat)
    (hsl : sliceBytes qp.buf qp.start qp.length = b :: t) :
    relayProxyToWgStep wgConn qp now =
      some { written := b :: t,
             wgConn := if b = 1 ∨ b = 2 then
                 { readDeadline := some (now + RejectAfterTime) }
               else wgConn,
             bufReleased := true } := by
  simp only [relayProxyToWgStep, hsl, List.head?_cons,
    WireGuardMessageTypeHandshakeInitiation, WireGuardMessageTypeHandshakeResponse]

lemma sliceBytes_ne_nil (qp : QueuedPacket) (h : qp.wellFormed) :
    ∃ b t, sliceBytes qp.buf qp.start qp.length = b :: t := by
  obtain ⟨hb, hl1⟩ := h
  have hlen := sliceBytes_length qp.buf qp.start qp.length hb
  rcases hsl : sliceBytes qp.buf qp.start qp.length with _ | ⟨b, t⟩
  · rw [hsl] at hlen
    simp at hlen
    omega
  · exact ⟨b, t, rfl⟩

/-- C4: for every packet dequeued by the Proxy→Wg worker (with length
≥ 1 and its window inside the buffer), the iteration writes the packet
to the upstream socket and refreshes the upstream read deadline to
`now + RejectAfterTime` if and only if the packet's first byte is 1
(handshake initiation) or 2 (handshake response); any other first byte
(3, cookie reply; 4, data) leaves the deadline state unchanged, and in
all cases the buffer is released to the pool. -/
theorem handshake_refresh (wgConn : WgConnModel) (qp : QueuedPacket) (now : Nat)
    (h : qp.wellFormed) :
    ∃ b r, (sliceBytes qp.buf qp.start qp.length).head? = some b ∧
      relayProxyToWgStep wgConn qp now = some r ∧
      r.written = sliceBytes qp.buf qp.start qp.length ∧
      r.bufReleased = true ∧
      r.wgConn = (if b = 1 ∨ b = 2 then
          { readDeadline := some (now + RejectAfterTime) }
        else wgConn) := by
  obtain ⟨b, t, hsl⟩ := sliceBytes_ne_nil qp h
  refine ⟨b, _, ?_, relayProxyToWgStep_cons wgConn qp now b t hsl, ?_, rfl, rfl⟩
  · rw [hsl]; rfl
  · rw [hsl]

/-- C4 witness: a handshake-response packet (first byte 2) refreshes the
deadline; instantiated at a concrete packet. -/
theorem handshake_refresh_witness :
    QueuedPacket.wellFormed { buf := [2, 9, 9, 9], start := 0, length := 4 } ∧
    (∃ b r,
      (sliceBytes [2, 9, 9, 9] 0 4).head? = some b ∧
      relayProxyToWgStep { readDeadline := some 7 }
          { buf := [2, 9, 9, 9], start := 0, length := 4 } 100 = some r ∧
      r.written = sliceBytes [2, 9, 9, 9] 0 4 ∧
      r.bufReleased = true ∧
      r.wgConn = (if b = 1 ∨ b = 2 then
          { readDeadline := some (100 + RejectAfterTime) }
        else { readDeadline := some 7 })) :=
  ⟨by decide,
   handshake_refresh { readDeadline := some 7 }
     { buf := [2, 9, 9, 9], start := 0, length := 4 } 100 (by decide)⟩

/-- C10: the Proxy→Wg worker reads `wgPacket[0]` with no length guard of
its own.  Under the enqueue-side precondition `start + length ≤ len(buf)`
and `length ≥ 1`, every buffer access of the worker is in bounds: the
slice `buf[start : start+length]` has exactly `length` elements, each of
its elements is the corresponding element of `buf`, and the first-byte
read succeeds (no panic).  Without `length ≥ 1`, the first-byte read of a
zero-length plaintext is out of bounds (the iteration panics). -/
theorem first_byte_bounds (wgConn : WgConnModel) (qp : QueuedPacket) (now : Nat)
    (hb : qp.start + qp.length ≤ qp.buf.length) :
    (1 ≤ qp.length →
      (sliceBytes qp.buf qp.start qp.length).length = qp.length ∧
      (∀ i, i < qp.length →
        (sliceBytes qp.buf qp.start qp.length).get? i = qp.buf.get? (qp.start + i)) ∧
      (relayProxyToWgStep wgConn qp now).isSome = true) ∧
    (qp.length = 0 → relayProxyToWgStep wgConn qp now = none) := by
  constructor
  · intro hl1
    obtain ⟨b, t, hsl⟩ := sliceBytes_ne_nil qp ⟨hb, hl1⟩
    refine ⟨sliceBytes_length qp.buf qp.start qp.length hb, ?_, ?_⟩
    · intro i hi
      simp only [sliceBytes, List.get?_eq_getElem?]
      rw [List.getElem?_take_of_lt hi, List.getElem?_drop]
    · rw [relayProxyToWgStep_cons wgConn qp now b t hsl]
      rfl
  · intro h0
    simp [relayProxyToWgStep, sliceBytes, h0]

/-- C10 witness: concrete in-bounds packet and concrete zero-length
packet. -/
theorem first_byte_bounds_witness :
    ((1 ≤ 2 →
      (sliceBytes [7, 8, 9] 1 2).length = 2 ∧
      (∀ i, i < 2 → (sliceBytes [7, 8, 9] 1 2).get? i = [7, 8, 9].get? (1 + i)) ∧
      (relayProxyToWgStep { readDeadline := none }
          { buf := [7, 8, 9], start := 1, length := 2 } 0).isSome = true) ∧
     ((2 : Nat) = 0 →
      relayProxyToWgStep { readDeadline := none }
          { buf := [7, 8, 9], start := 1, length := 2 } 0 = none)) ∧
    ((1 ≤ (0 : Nat) →
      (sliceBytes [7, 8, 9] 1 0).length = 0 ∧
      (∀ i, i < 0 → (sliceBytes [7, 8, 9] 1 0).get? i = [7, 8, 9].get? (1 + i)) ∧
      (relayProxyToWgStep { readDeadline := none }
          { buf := [7, 8, 9], start := 1, length := 0 } 0).isSome = true) ∧
     ((0 : Nat) = 0 →
      relayProxyToWgStep { readDeadline := none }
          { buf := [7, 8, 9], start := 1, length := 0 } 0 = none)) :=
  ⟨first_byte_bounds { readDeadline := none }
     { buf := [7, 8, 9], start := 1, length := 2 } 0 (by decide),
   first_byte_bounds { readDeadline := none }
     { buf := [7, 8, 9], start := 1, length := 0 } 0 (by decide)⟩

/-- C9: every packet successfully enqueued on the session's send queue
is handled by the Proxy→Wg worker before it exits: the worker consumes
the queue until closure, attempts the upstream write and releases the
buffer for every queued item, and only after all of them closes the
upstream socket (the trace ends with the socket close, and every write
and release event precedes it). -/
theorem enqueued_written_before_exit (queue : List QueuedPacket) (now : Nat)
    (h : ∀ qp ∈ queue, qp.wellFormed) :
    ∃ body, relayProxyToWgTrace queue now = some (body ++ [RelayEvent.closeWgConn]) ∧
      ∀ qp ∈ queue,
        RelayEvent.writeWg (sliceBytes qp.buf qp.start qp.length) ∈ body ∧
        RelayEvent.putBuf qp.buf ∈ body := by
  induction queue with
  | nil => exact ⟨[], rfl, by simp⟩
  | cons qp rest ih =>
    obtain ⟨body, hbody, hmem⟩ := ih (fun q hq => h q (List.mem_cons_of_mem _ hq))
    obtain ⟨b, t, hsl⟩ := sliceBytes_ne_nil qp (h qp (List.mem_cons_self _ _))
    refine ⟨([RelayEvent.writeWg (b :: t)] ++
      (if b = WireGuardMessageTypeHandshakeInitiation ∨
          b = WireGuardMessageTypeHandshakeResponse then
        [RelayEvent.setReadDeadline (now + RejectAfterTime)]
      else []) ++
      [RelayEvent.putBuf qp.buf]) ++ body, ?_, ?_⟩
    · simp only [relayProxyToWgTrace, proxyToWgIterEvents, hsl, List.head?_cons, hbody,
        List.append_assoc]
    · intro q hq
      rcases List.mem_cons.mp hq with rfl | hq'
      · rw [hsl]
        constructor <;> simp
      · obtain ⟨h1, h2⟩ := hmem q hq'
        constructor <;> simp [h1, h2]

/-- C9 witness: a concrete two-packet queue (one handshake, one data
packet). -/
theorem enqueued_written_before_exit_witness :
    (∀ qp ∈ ([⟨[1, 5], 0, 2⟩, ⟨[9, 4, 6], 1, 2⟩] : List QueuedPacket),
      qp.wellFormed) ∧
    (∃ body,
      relayProxyToWgTrace [⟨[1, 5], 0, 2⟩, ⟨[9, 4, 6], 1, 2⟩] 3 =
        some (body ++ [RelayEvent.closeWgConn]) ∧
      ∀ qp ∈ ([⟨[1, 5], 0, 2⟩, ⟨[9, 4, 6], 1, 2⟩] : List QueuedPacket),
        RelayEvent.writeWg (sliceBytes qp.buf qp.start qp.length) ∈ body ∧
        RelayEvent.putBuf qp.buf ∈ body) :=
  ⟨by decide,
   enqueued_written_before_exit [⟨[1, 5], 0, 2⟩, ⟨[9, 4, 6], 1, 2⟩] 3 (by decide)⟩

/-- C8: a datagram whose source address is not the configured WireGuard
endpoint under IPv4-mapped-IPv6-normalized equality is discarded by the
Wg→Proxy worker: nothing is written to the proxy socket, the encryption
step is never invoked, the worker's state is unchanged, and the loop
continues. -/
theorem non_endpoint_discard (cfg : ServerModel) (clientAddrPort : AddrPort)
    (loc : WgToProxyLocal) (inp : WgToProxyInput) (n : Nat) (src : AddrPort)
    (hr : inp.readResult = .ok n src)
    (hne : addrPortMappedEqual src cfg.wgAddrPort = false) :
    relayWgToProxyIter cfg clientAddrPort loc inp =
      some { locState := loc, write := none, encryptCalled := false,
             outcome := .continueIter } := by
  simp [relayWgToProxyIter, hr, hne]

/-- C8 witness: a concrete datagram from a non-endpoint source (note the
endpoint comparison treats `::ffff:a` as the IPv4 address `a`, so the
discarded source here differs even after unmapping). -/
theorem non_endpoint_discard_witness :
    ({ readResult := .ok 32 { addr := .v6 99, port := 51820 },
       encryptResult := some (0, 48),
       atomicPktinfo := some [1] } : WgToProxyInput).readResult =
        .ok 32 { addr := .v6 99, port := 51820 } ∧
    addrPortMappedEqual { addr := .v6 99, port := 51820 }
      { addr := .v4 99, port := 51820 } = false ∧
    relayWgToProxyIter
      { sendChannelCapacity := 512, maxProxyPacketSizev4 := 1472,
        maxProxyPacketSizev6 := 1452, wgTunnelMTUv4 := 1392, wgTunnelMTUv6 := 1360,
        wgAddrPort := { addr := .v4 99, port := 51820 },
        handler := { frontOverhead := 0, rearOverhead := 0 } }
      { addr := .v4 7, port := 1000 }
      { clientPktinfop := none, clientPktinfo := [] }
      { readResult := .ok 32 { addr := .v6 99, port := 51820 },
        encryptResult := some (0, 48),
        atomicPktinfo := some [1] } =
      some { locState := { clientPktinfop := none, clientPktinfo := [] },
             write := none, encryptCalled := false, outcome := .continueIter } :=
  ⟨rfl, by decide,
   non_endpoint_discard _ _ _ _ 32 { addr := .v6 99, port := 51820 } rfl (by decide)⟩

/-- C2 counterexample: after a first `Stop` completes on a started
server, a second `Stop` does not return nil — `SetReadDeadline` on the
closed proxy socket fails with `net.ErrClosed` and `Stop` returns that
error, so the second call is not an error-free no-op. -/
theorem stop_idempotent_counterexample :
    stopServer { proxyConn := some .opened, table := Table.empty } =
      (.ok (), stoppedOnce) ∧
    (stopServer stoppedOnce).1 = .error .errClosed ∧
    (stopServer stoppedOnce).1 ≠ .ok () :=
  ⟨rfl, rfl, fun h => Except.noConfusion h⟩

/-- C2 amended: a second `Stop` after the first completes is safe and
performs no state change, but it returns the `net.ErrClosed` error from
setting the read deadline on the already-closed proxy socket rather than
no error; `Stop` is an error-free no-op only when the server was never
started (`proxyConn` still nil). -/
theorem stop_second_call (s : LifecycleState) :
    (s.proxyConn = some .closed → stopServer s = (.error .errClosed, s)) ∧
    (s.proxyConn = none → stopServer s = (.ok (), s)) := by
  constructor
  · intro h
    simp [stopServer, h, connSetReadDeadline]
  · intro h
    simp [stopServer, h]

/-- C2 amended witness: the second call at the concrete post-`Stop`
state, and the never-started state. -/
theorem stop_second_call_witness :
    (stoppedOnce.proxyConn = some .closed →
      stopServer stoppedOnce = (.error .errClosed, stoppedOnce)) ∧
    (({ proxyConn := none, table := Table.empty } : LifecycleState).proxyConn = none →
      stopServer { proxyConn := none, table := Table.empty } =
        (.ok (), { proxyConn := none, table := Table.empty })) :=
  ⟨(stop_second_call stoppedOnce).1,
   (stop_second_call { proxyConn := none, table := Table.empty }).2⟩

lemma Table.insert_lookup_self (t : Table) (a : AddrPort) (e : EntryModel) :
    t.insert a e a = some e := by
  simp [Table.insert]

lemma Table.insert_lookup_ne (t : Table) (a b : AddrPort) (e : EntryModel)
    (h : b ≠ a) : t.insert a e b = t b := by
  simp [Table.insert, h]

lemma Table.insert_cancel (t : Table) (a : AddrPort) (e : EntryModel)
    (h : t a = some e) : t.insert a e = t := by
  funext x
  by_cases hx : x = a
  · subst hx; simp [Table.insert, h]
  · simp [Table.insert, hx]

lemma recvWorkerStartAndEnqueue_table (cfg : ServerModel) (st : ServerState)
    (cap : AddrPort) (ne : EntryModel) (isNew : Bool) (qp : QueuedPacket) :
    ∃ X, (recvWorkerStartAndEnqueue cfg st cap ne isNew qp).1.table =
        st.table.insert cap X ∧
      X.maxProxyPacketSize = ne.maxProxyPacketSize ∧
      X.workersStarted = (isNew || ne.workersStarted) ∧
      X.orphaned = ne.orphaned := by
  cases isNew with
  | false =>
    unfold recvWorkerStartAndEnqueue
    simp only [Bool.false_eq_true, if_false, Bool.false_or]
    split
    · exact ⟨{ ne with wgConnSendCh := ne.wgConnSendCh ++ [qp] }, rfl, rfl, rfl, rfl⟩
    · exact ⟨ne, rfl, rfl, rfl, rfl⟩
  | true =>
    unfold recvWorkerStartAndEnqueue
    simp only [if_true, Bool.true_or]
    split
    · exact ⟨{ ne with workersStarted := true, wgConnSendCh := ne.wgConnSendCh ++ [qp] }, rfl, rfl, rfl, rfl⟩
    · exact ⟨{ ne with workersStarted := true }, rfl, rfl, rfl, rfl⟩

lemma recvCriticalSectionTail_table (cfg : ServerModel) (st : ServerState)
    (cap : AddrPort) (ne : EntryModel) (isNew : Bool) (cmsg : List Nat)
    (inp : IngressInput) (qp : QueuedPacket) :
    ∃ X, (recvCriticalSectionTail cfg st cap ne isNew cmsg inp qp).1.table =
        st.table.insert cap X ∧
      X.maxProxyPacketSize = ne.maxProxyPacketSize ∧
      ((X.workersStarted = (isNew || ne.workersStarted) ∧ X.orphaned = ne.orphaned) ∨
       (X.workersStarted = ne.workersStarted ∧ X.orphaned = (isNew || ne.orphaned))) := by
  unfold recvCriticalSectionTail
  split
  · split
    · refine ⟨_, rfl, by cases isNew <;> rfl,
        Or.inr ⟨by cases isNew <;> rfl, by cases isNew <;> rfl⟩⟩
    · obtain ⟨X, h1, h3, h4, h5⟩ :=
        recvWorkerStartAndEnqueue_table cfg st cap
          { ne with clientPktinfoAtomic := some cmsg, clientPktinfoCache := cmsg } isNew qp
      exact ⟨X, h1, h3, Or.inl ⟨h4, h5⟩⟩
  · obtain ⟨X, h1, h3, h4, h5⟩ := recvWorkerStartAndEnqueue_table cfg st cap ne isNew qp
    exact ⟨X, h1, h3, Or.inl ⟨h4, h5⟩⟩

lemma recvCriticalSectionTail_lookup (cfg : ServerModel) (st : ServerState)
    (cap : AddrPort) (ne : EntryModel) (isNew : Bool) (cmsg : List Nat)
    (inp : IngressInput) (qp : QueuedPacket) :
    ∃ X, (recvCriticalSectionTail cfg st cap ne isNew cmsg inp qp).1.table cap = some X ∧
      X.maxProxyPacketSize = ne.maxProxyPacketSize := by
  obtain ⟨X, h1, h3, _⟩ := recvCriticalSectionTail_table cfg st cap ne isNew cmsg inp qp
  refine ⟨X, ?_, h3⟩
  rw [h1]
  exact Table.insert_lookup_self _ cap X

lemma recvStep_table_char (cfg : ServerModel) (s : ServerState) (inp : IngressInput)
    (a : AddrPort) (e' : EntryModel)
    (h : (recvFromProxyConnStep cfg s inp).1.table a = some e') :
    (∃ e, s.table a = some e ∧ e'.maxProxyPacketSize = e.maxProxyPacketSize ∧
      e'.workersStarted = e.workersStarted ∧ e'.orphaned = e.orphaned) ∨
    (s.table a = none ∧
      e'.maxProxyPacketSize =
        (if a.addr.is4 || a.addr.is4In6 then cfg.maxProxyPacketSizev4
         else cfg.maxProxyPacketSizev6) ∧
      e'.workersStarted = !e'.orphaned) := by
  unfold recvFromProxyConnStep at h
  rcases hrr : inp.readResult with _ | _ | _ | ⟨cap, cmsg⟩ <;> simp only [hrr] at h
  · exact Or.inl ⟨e', h, rfl, rfl, rfl⟩
  · exact Or.inl ⟨e', h, rfl, rfl, rfl⟩
  · exact Or.inl ⟨e', h, rfl, rfl, rfl⟩
  · rcases hdr : inp.decryptResult with _ | ⟨ws, wl⟩ <;> simp only [hdr] at h
    · exact Or.inl ⟨e', h, rfl, rfl, rfl⟩
    · rcases hlk : s.table cap with _ | ne <;> simp only [hlk] at h
      · rcases hlo : inp.listenOk with _ | _ <;>
          simp only [hlo, Bool.not_false, Bool.not_true, Bool.false_eq_true,
            if_true, if_false] at h
        · exact Or.inl ⟨e', h, rfl, rfl, rfl⟩
        · rcases hsd : inp.setDeadlineOk with _ | _ <;>
            simp only [hsd, Bool.not_false, Bool.not_true, Bool.false_eq_true,
              if_true, if_false] at h
          · exact Or.inl ⟨e', h, rfl, rfl, rfl⟩
          · obtain ⟨X, h1, h3, h45⟩ :=
              recvCriticalSectionTail_table cfg
                { table := s.table.insert cap
                    { clientPktinfoAtomic := none, clientPktinfoCache := [],
                      wgConnDeadline := some (inp.now + RejectAfterTime),
                      wgConnSendCh := [],
                      maxProxyPacketSize :=
                        if cap.addr.is4 || cap.addr.is4In6 then cfg.maxProxyPacketSizev4
                        else cfg.maxProxyPacketSizev6,
                      workersStarted := false, orphaned := false },
                  outstanding := s.outstanding + 1 }
                cap
                { clientPktinfoAtomic := none, clientPktinfoCache := [],
                  wgConnDeadline := some (inp.now + RejectAfterTime),
                  wgConnSendCh := [],
                  maxProxyPacketSize :=
                    if cap.addr.is4 || cap.addr.is4In6 then cfg.maxProxyPacketSizev4
                    else cfg.maxProxyPacketSizev6,
                  workersStarted := false, orphaned := false }
                true cmsg inp
                { buf := inp.packetBuf, start := ws, length := wl }
            rw [h1] at h
            by_cases hac : a = cap
            · subst hac
              rw [Table.insert_lookup_self] at h
              cases h
              refine Or.inr ⟨hlk, h3, ?_⟩
              rcases h45 with ⟨hw, ho⟩ | ⟨hw, ho⟩
              · rw [hw, ho]
                simp
              · rw [hw, ho]
                simp
            · simp only [Table.insert_lookup_ne _ _ _ _ hac] at h
              exact Or.inl ⟨e', h, rfl, rfl, rfl⟩
      · obtain ⟨X, h1, h3, h45⟩ :=
          recvCriticalSectionTail_table cfg { s with outstanding := s.outstanding + 1 }
            cap ne false cmsg inp { buf := inp.packetBuf, start := ws, length := wl }
        rw [h1] at h
        by_cases hac : a = cap
        · subst hac
          rw [Table.insert_lookup_self] at h
          cases h
          refine Or.inl ⟨ne, hlk, h3, ?_⟩
          rcases h45 with ⟨hw, ho⟩ | ⟨hw, ho⟩
          · rw [hw, ho]; simp
          · rw [hw, ho]; simp
        · rw [Table.insert_lookup_ne _ _ _ _ hac] at h
          exact Or.inl ⟨e', h, rfl, rfl, rfl⟩

lemma dequeueStep_table_char (s : ServerState) (b a : AddrPort) (e' : EntryModel)
    (h : (dequeueStep s b).table a = some e') :
    ∃ e, s.table a = some e ∧ e'.maxProxyPacketSize = e.maxProxyPacketSize ∧
      e'.workersStarted = e.workersStarted ∧ e'.orphaned = e.orphaned := by
  unfold dequeueStep at h
  rcases hlk : s.table b with _ | eb <;> simp only [hlk] at h
  · exact ⟨e', h, rfl, rfl, rfl⟩
  · split at h
    · rcases hq : eb.wgConnSendCh with _ | ⟨q, rest⟩ <;> simp only [hq] at h
      · exact ⟨e', h, rfl, rfl, rfl⟩
      · by_cases hab : a = b
        · subst hab
          rw [Table.insert_lookup_self] at h
          cases h
          exact ⟨eb, hlk, rfl, rfl, rfl⟩
        · rw [Table.insert_lookup_ne _ _ _ _ hab] at h
          exact ⟨e', h, rfl, rfl, rfl⟩
    · exact ⟨e', h, rfl, rfl, rfl⟩

lemma sessionEndStep_table_char (s : ServerState) (b a : AddrPort) (e' : EntryModel)
    (h : (sessionEndStep s b).table a = some e') : s.table a = some e' := by
  unfold sessionEndStep at h
  rcases hlk : s.table b with _ | eb <;> simp only [hlk] at h
  · exact h
  · split at h
    · by_cases hab : a = b
      · subst hab
        simp [Table.erase] at h
      · simp only [Table.erase, if_neg hab] at h
        exact h
    · exact h

/-- C1 counterexample: `orphanState` is reachable — one ingress
iteration from the empty server in which a previously-unseen client's
packet decrypts, the session entry is inserted, and the pktinfo parse
then fails inside the same critical section — yet its table contains an
entry whose workers were never started, refuting the claimed invariant
in exactly the parenthesized case. -/
theorem session_table_invariant_counterexample :
    Reachable cfgC orphanState ∧
    orphanState.table addrC = some orphanEntryC ∧
    orphanEntryC.workersStarted = false :=
  ⟨Reachable.ingress initialState inpC Reachable.init, by decide, rfl⟩

/-- C1 amended: in every reachable state, every entry in the session
table either has both workers started — and table membership itself
witnesses that the workers have not both exited, since the Wg→Proxy
worker's teardown deletes the entry in the same critical section that
closes the queue — or is an orphan: it was inserted by an ingress
iteration whose pktinfo parse failed in the same critical section, in
which case neither worker was ever started.  Formally, the ghost
`workersStarted` flag equals the negation of the ghost `orphaned`
flag. -/
theorem session_table_workers_inv (cfg : ServerModel) (s : ServerState)
    (hs : Reachable cfg s) :
    ∀ a e, s.table a = some e → e.workersStarted = !e.orphaned := by
  induction hs with
  | init =>
    intro a e h
    exact absurd h (by simp [initialState, Table.empty])
  | ingress s inp _ ih =>
    intro a e h
    rcases recvStep_table_char _ s inp a e h with ⟨e0, he0, _, hw, ho⟩ | ⟨_, _, hinv⟩
    · rw [hw, ho]
      exact ih a e0 he0
    · exact hinv
  | dequeue s b _ ih =>
    intro a e h
    obtain ⟨e0, he0, _, hw, ho⟩ := dequeueStep_table_char s b a e h
    rw [hw, ho]
    exact ih a e0 he0
  | sessionEnd s b _ ih =>
    intro a e h
    exact ih a e (sessionEndStep_table_char s b a e h)

/-- C1 amended witness: the amended invariant instantiated at the
concrete reachable state `orphanState` and its orphan entry. -/
theorem session_table_workers_inv_witness :
    orphanState.table addrC = some orphanEntryC ∧
    orphanEntryC.workersStarted = !orphanEntryC.orphaned :=
  ⟨by decide,
   session_table_workers_inv cfgC orphanState
     (Reachable.ingress initialState inpC Reachable.init) addrC orphanEntryC (by decide)⟩

/-- C3: when a successfully decrypted ingress packet finds its session's
send queue full (and the pktinfo bytes match the cache, so the iteration
makes no pktinfo update), the non-blocking enqueue takes the `default`
branch: the new packet is dropped (the queued packets are untouched),
its buffer is returned to the pool, and the entire server state —
table, every session, and the pool balance — is exactly as before the
iteration. -/
theorem send_queue_overflow_drop (cfg : ServerModel) (s : ServerState)
    (inp : IngressInput) (clientAddrPort : AddrPort) (cmsg : List Nat)
    (wgPacketStart wgPacketLength : Nat) (natEntry : EntryModel)
    (hr : inp.readResult = .ok clientAddrPort cmsg)
    (hd : inp.decryptResult = some (wgPacketStart, wgPacketLength))
    (he : s.table clientAddrPort = some natEntry)
    (hc : natEntry.clientPktinfoCache = cmsg)
    (hfull : cfg.sendChannelCapacity ≤ natEntry.wgConnSendCh.length) :
    recvFromProxyConnStep cfg s inp = (s, .continueIter) := by
  have hcne : ¬(natEntry.clientPktinfoCache ≠ cmsg) := by simp [hc]
  have hnlt : ¬(natEntry.wgConnSendCh.length < cfg.sendChannelCapacity) := by omega
  simp only [recvFromProxyConnStep, hr, hd, he, recvCriticalSectionTail, if_neg hcne,
    recvWorkerStartAndEnqueue, Bool.false_eq_true, if_false, if_neg hnlt]
  rw [Table.insert_cancel s.table clientAddrPort natEntry he]
  rw [Nat.add_sub_cancel]

/-- C3 witness: a concrete full-queue session (capacity 2, two queued
packets) and a concrete decrypted packet for it. -/
theorem send_queue_overflow_drop_witness :
    recvFromProxyConnStep cfgC fullState inpFullC = (fullState, .continueIter) :=
  send_queue_overflow_drop cfgC fullState inpFullC addrC [1] 0 4 fullEntryC
    rfl rfl (by decide) rfl (by decide)

/-- C7: at session creation the entry's `maxProxyPacketSize` is the v4
size exactly when the client address is IPv4 or IPv4-mapped IPv6 and the
v6 size otherwise, and no transition of the system — an ingress
iteration, a Proxy→Wg dequeue, or a session teardown — ever changes the
field of an entry already in the table. -/
theorem entry_size_family_and_immutable (cfg : ServerModel) :
    (∀ s inp clientAddrPort cmsg wgPacketStart wgPacketLength,
      inp.readResult = .ok clientAddrPort cmsg →
      inp.decryptResult = some (wgPacketStart, wgPacketLength) →
      s.table clientAddrPort = none →
      inp.listenOk = true → inp.setDeadlineOk = true →
      ∃ e, (recvFromProxyConnStep cfg s inp).1.table clientAddrPort = some e ∧
        e.maxProxyPacketSize =
          (if clientAddrPort.addr.is4 || clientAddrPort.addr.is4In6 then
            cfg.maxProxyPacketSizev4 else cfg.maxProxyPacketSizev6)) ∧
    (∀ s inp a e e', s.table a = some e →
      (recvFromProxyConnStep cfg s inp).1.table a = some e' →
      e'.maxProxyPacketSize = e.maxProxyPacketSize) ∧
    (∀ s b a e e', s.table a = some e → (dequeueStep s b).table a = some e' →
      e'.maxProxyPacketSize = e.maxProxyPacketSize) ∧
    (∀ s b a e e', s.table a = some e → (sessionEndStep s b).table a = some e' →
      e'.maxProxyPacketSize = e.maxProxyPacketSize) := by
  refine ⟨?_, ?_, ?_, ?_⟩
  · intro s inp cap cmsg ws wl hr hd hnone hlisten hsd
    simp only [recvFromProxyConnStep, hr, hd, hnone, hlisten, hsd, Bool.not_true,
      Bool.false_eq_true, if_false]
    obtain ⟨X, hX1, hX2⟩ :=
      recvCriticalSectionTail_lookup cfg
        { table := s.table.insert cap
            { clientPktinfoAtomic := none, clientPktinfoCache := [],
              wgConnDeadline := some (inp.now + RejectAfterTime),
              wgConnSendCh := [],
              maxProxyPacketSize :=
                if cap.addr.is4 || cap.addr.is4In6 then cfg.maxProxyPacketSizev4
                else cfg.maxProxyPacketSizev6,
              workersStarted := false, orphaned := false },
          outstanding := s.outstanding + 1 }
        cap
        { clientPktinfoAtomic := none, clientPktinfoCache := [],
          wgConnDeadline := some (inp.now + RejectAfterTime),
          wgConnSendCh := [],
          maxProxyPacketSize :=
            if cap.addr.is4 || cap.addr.is4In6 then cfg.maxProxyPacketSizev4
            else cfg.maxProxyPacketSizev6,
          workersStarted := false, orphaned := false }
        true cmsg inp { buf := inp.packetBuf, start := ws, length := wl }
    exact ⟨X, hX1, hX2⟩
  · intro s inp a e e' he h
    rcases recvStep_table_char cfg s inp a e' h with ⟨e0, he0, hsz, _, _⟩ | ⟨hn, _, _⟩
    · rw [he] at he0
      cases he0
      exact hsz
    · rw [he] at hn
      cases hn
  · intro s b a e e' he h
    obtain ⟨e0, he0, hsz, _, _⟩ := dequeueStep_table_char s b a e' h
    rw [he] at he0
    cases he0
    exact hsz
  · intro s b a e e' he h
    have h2 := sessionEndStep_table_char s b a e' h
    rw [he] at h2
    cases h2
    rfl

/-- C7 witness: part one instantiated at a concrete IPv4-mapped-IPv6
client (treated as IPv4) joining the empty table. -/
theorem entry_size_family_and_immutable_witness :
    ∃ e, (recvFromProxyConnStep cfgC initialState
        { readResult := .ok { addr := .v4in6 77, port := 7 } [],
          packetBuf := [4, 0], decryptResult := some (0, 2),
          listenOk := true, setDeadlineOk := true, parseOk := true, now := 0 }).1.table
        { addr := .v4in6 77, port := 7 } = some e ∧
      e.maxProxyPacketSize =
        (if ({ addr := .v4in6 77, port := 7 } : AddrPort).addr.is4 ||
            ({ addr := .v4in6 77, port := 7 } : AddrPort).addr.is4In6 then
          cfgC.maxProxyPacketSizev4 else cfgC.maxProxyPacketSizev6) :=
  (entry_size_family_and_immutable cfgC).1 initialState
    { readResult := .ok { addr := .v4in6 77, port := 7 } [],
      packetBuf := [4, 0], decryptResult := some (0, 2),
      listenOk := true, setDeadlineOk := true, parseOk := true, now := 0 }
    { addr := .v4in6 77, port := 7 } [] 0 2 rfl rfl rfl rfl rfl

end SwgpServer
